import Mathlib

/-!
Verification development for the avio media-playback core: a shallow
embedding of the decode-and-synchronization subsystem (video seek-settle
state machine, duration estimator, RGB-to-RGBA conversion, audio
decode-to-memory buffer, audio cursor, audio seek, and the A/V sync
monitor), with theorems checking the specification's claims against it.
-/

/-- A rational time base (numerator/denominator), as in the container
library. Fields are signed 64-bit in the source; modelled as Int. -/
structure AVRational where
  num : Int
  den : Int
deriving DecidableEq, Repr

/-- The container library's rescale with rounding to nearest, ties away
from zero (the default rounding used by the timestamp rescale the source
calls). For a negative value the library negates, rescales and negates
back; divisions are C truncating divisions, modelled with Int.tdiv.
The large-operand overflow path is not modelled (plausible media
timestamps stay far below 2^63). -/
def av_rescale_rnd_near (a b c : Int) : Int :=
  if a < 0 then -(Int.tdiv ((-a) * b + Int.tdiv c 2) c)
  else Int.tdiv (a * b + Int.tdiv c 2) c

/-- Rescale a value from time base bq to time base cq (av_rescale_q). -/
def av_rescale_q (a : Int) (bq cq : AVRational) : Int :=
  av_rescale_rnd_near a (bq.num * cq.den) (cq.num * bq.den)

/-- The millisecond time base Rational(1, 1000) from the source. -/
def msTimeBase : AVRational := ⟨1, 1000⟩

/-- timestamp_to_ms from video.rs and audio.rs: rescale a stream
timestamp to milliseconds. -/
def timestamp_to_ms (timestamp : Int) (time_base : AVRational) : Int :=
  av_rescale_q timestamp time_base msTimeBase

/-- ms_to_timestamp from video.rs: rescale milliseconds into the given
time base. -/
def ms_to_timestamp (ms : Int) (time_base : AVRational) : Int :=
  av_rescale_q ms msTimeBase time_base

example : timestamp_to_ms 6000 ⟨1, 1000⟩ = 6000 := by decide
example : timestamp_to_ms 90000 ⟨1, 90000⟩ = 1000 := by decide
example : Int.tdiv (-7) 2 = -3 := by decide

/-! ## Video pipeline: seek-settle state machine (video.rs) -/

/-- The mutable fields of struct Video that the seek-settle state
machine reads and writes, together with the immutable stream metadata
it consults (stream index and time base). The remaining Video fields
(decoder, scaler, width, height, duration, frame rate) do not
participate in these transitions and are modelled where needed. -/
structure VideoState where
  stream_index : Nat
  time_base : AVRational
  just_seeked : Bool
  seek_target_ms : Int
  /-- u32 in the source; it is only ever incremented while a seek is
  settling and the safety valve ends settling at 301, so it never
  approaches the u32 wrap. -/
  frames_decoded_since_seek : Nat
  current_timestamp_ms : Int
deriving DecidableEq, Repr

/-- One interaction of the next_frame loop with the decoder/demuxer,
recorded as an oracle event.
- frame pts convertOk: receive_frame returned Ok; pts is the decoded
  frame timestamp (in stream time-base units) and convertOk records
  whether the scaler call inside convert_frame would succeed if this
  frame were emitted.
- needPacket (some (idx, sendOk)): receive_frame returned Err and
  packets().next() yielded a packet of stream idx whose send_packet
  call succeeds iff sendOk.
- needPacket none: receive_frame returned Err and the demuxer is at
  end of stream. -/
inductive RecvEvent where
  | frame (pts : Option Int) (convertOk : Bool)
  | needPacket (pkt : Option (Nat × Bool))
deriving DecidableEq, Repr

/-- Whether an oracle event carries a conversion failure. -/
def RecvEvent.convertOkOf : RecvEvent → Bool
  | .frame _ c => c
  | .needPacket _ => true

/-- The outcome of one iteration of the next_frame loop body. -/
inductive StepOut where
  /-- The loop continues with no value returned. -/
  | next
  /-- next_frame returns Some(Ok(frame)); the payload is the emitted
  frame timestamp in milliseconds (none when the frame had no pts). -/
  | emitOk (ptsMs : Option Int)
  /-- next_frame returns Some(Err(..)) (send_packet failure or
  convert_frame/scaler failure). -/
  | emitErr
  /-- next_frame returns None (end of stream). -/
  | eos
deriving DecidableEq, Repr

/-- One iteration of the loop body of Video::next_frame (video.rs,
match on receive_frame). Faithful to the source ordering: on a frame
with a pts, while just_seeked the counter is incremented first, then
the over-300 safety valve is checked, then the pts_ms == 0 skip, then
the pts_ms >= seek_target_ms settle test; frames without a pts are
emitted only when not settling; on receive_frame error a packet is
pulled, packets of other streams are dropped, and a send_packet
failure returns an error without touching the seek state. -/
def next_frame_step (s : VideoState) : RecvEvent → VideoState × StepOut
  | .frame (some pts) convertOk =>
    let pts_ms := timestamp_to_ms pts s.time_base
    if s.just_seeked then
      let count := s.frames_decoded_since_seek + 1
      if count > 300 then
        ({ s with current_timestamp_ms := pts_ms, just_seeked := false,
                  frames_decoded_since_seek := count },
         if convertOk then .emitOk (some pts_ms) else .emitErr)
      else if pts_ms = 0 then
        ({ s with frames_decoded_since_seek := count }, .next)
      else if pts_ms ≥ s.seek_target_ms then
        ({ s with current_timestamp_ms := pts_ms, just_seeked := false,
                  frames_decoded_since_seek := count },
         if convertOk then .emitOk (some pts_ms) else .emitErr)
      else
        ({ s with current_timestamp_ms := pts_ms,
                  frames_decoded_since_seek := count }, .next)
    else
      ({ s with current_timestamp_ms := pts_ms },
       if convertOk then .emitOk (some pts_ms) else .emitErr)
  | .frame none convertOk =>
    if s.just_seeked then (s, .next)
    else (s, if convertOk then .emitOk none else .emitErr)
  | .needPacket (some (idx, sendOk)) =>
    if idx = s.stream_index then
      if sendOk then (s, .next) else (s, .emitErr)
    else (s, .next)
  | .needPacket none => (s, .eos)

/-- Video::seek_to_ms_accurate (video.rs). The decoder flush and the
conversion of the target to the container time base happen before the
container-level seek; the container seek is an external call whose
success is the containerSeekOk oracle. Only on success are
just_seeked, seek_target_ms, frames_decoded_since_seek and
current_timestamp_ms assigned; on failure the error propagates with
those fields untouched (the flush affects only decoder-internal
buffers, which are part of the event oracle, not of VideoState). -/
def seek_to_ms_accurate (s : VideoState) (target_ms : Int)
    (containerSeekOk : Bool) : Except Unit Unit × VideoState :=
  let _target_ts := ms_to_timestamp target_ms ⟨1, 1000000⟩
  if containerSeekOk then
    (Except.ok (), { s with just_seeked := true, seek_target_ms := target_ms,
                            frames_decoded_since_seek := 0,
                            current_timestamp_ms := target_ms })
  else (Except.error (), s)

/-- Repeatedly call next_frame until it emits a frame, as the caller
of seek does when pulling frames: loop iterations that return nothing
continue inside one next_frame call, error returns (send_packet or
conversion failures) end one next_frame call and the caller calls
next_frame again on the same stream position, and end of stream stops
the pulling. Returns the emitted frame's pts in ms (none for a
pts-less frame) and the pipeline state right after emission. -/
def pull_until_frame (s : VideoState) :
    List RecvEvent → Option (Option Int × VideoState)
  | [] => none
  | e :: rest =>
    match next_frame_step s e with
    | (s', .next) => pull_until_frame s' rest
    | (s', .emitOk p) => some (p, s')
    | (s', .emitErr) => pull_until_frame s' rest
    | (_, .eos) => none

/-! ## Duration estimator (video.rs) -/

/-- A demuxed packet as the duration scan sees it: owning stream index
and optional presentation timestamp in stream time-base units. -/
structure AVPacket where
  stream : Nat
  pts : Option Int
deriving DecidableEq, Repr

/-- Video::calculate_duration (video.rs): iterate every packet of the
container in delivery order; for each packet of the target stream that
has a pts, overwrite last_pts with that pts rescaled to milliseconds;
return the final value (0 when no such packet exists). The trailing
container seek back to position 0 touches only the demuxer. -/
def calculate_duration (packets : List AVPacket) (stream_index : Nat)
    (time_base : AVRational) : Int :=
  packets.foldl
    (fun last_pts packet =>
      if packet.stream = stream_index then
        match packet.pts with
        | some pts => av_rescale_q pts time_base msTimeBase
        | none => last_pts
      else last_pts)
    0

/-- Modelled from the spec's words for comparison with
calculate_duration: the maximum over all packets of the target stream
of the packet's presentation timestamp rescaled to milliseconds
(starting from 0, the same initial value the source uses). -/
def spec_max_packet_pts_ms (packets : List AVPacket) (stream_index : Nat)
    (time_base : AVRational) : Int :=
  packets.foldl
    (fun acc packet =>
      if packet.stream = stream_index then
        match packet.pts with
        | some pts => max acc (av_rescale_q pts time_base msTimeBase)
        | none => acc
      else acc)
    0

/-- The duration selection in Video::new (video.rs): keep the
container-reported duration unless it is below the plausibility
threshold of ten frame intervals, in which case fall back to the
packet scan. The threshold (1000.0 / fps) as i64 * 10 is computed in
f64 in the source and passed here as the already-computed integer
min_reasonable_duration. -/
def video_duration_ms (reported_duration min_reasonable_duration : Int)
    (packets : List AVPacket) (stream_index : Nat)
    (time_base : AVRational) : Int :=
  if reported_duration < min_reasonable_duration then
    calculate_duration packets stream_index time_base
  else reported_duration

/-! ## Audio decode-to-memory and position mapping (audio.rs) -/

/-- DecodedAudio::ms_to_sample_pos (audio.rs): milliseconds to an
element offset in the stereo-interleaved buffer. The source computes
(ms as f64 * (sample_rate as f64 / 1000.0)) as usize * 2; modelled
with exact integer arithmetic as floor(ms * sample_rate / 1000) * 2,
the value the spec states, with the f64 cast's clamp of negative
inputs to 0 kept (Int.toNat). -/
def ms_to_sample_pos (sample_rate : Nat) (ms : Int) : Nat :=
  (ms.toNat * sample_rate / 1000) * 2

/-- DecodedAudio::sample_pos_to_ms (audio.rs): element offset back to
milliseconds. The source computes ((pos / 2) as f64 * (1000.0 /
sample_rate as f64)) as i64; modelled with exact integer arithmetic as
floor((pos / 2) * 1000 / sample_rate), the value the spec states. -/
def sample_pos_to_ms (sample_rate : Nat) (pos : Nat) : Int :=
  ((pos / 2) * 1000 / sample_rate : Nat)

/-- One decoded audio frame as the DecodedAudio::new loop sees it.
- native plane0: the frame is already F32 planar; plane(0) holds these
  samples.
- convertible (some plane0): any other sample format whose resampler
  conversion succeeded, yielding plane(0) of the converted frame.
- convertible none: a conversion failure; the frame is logged and
  dropped. -/
inductive AudioFrameEvent where
  | native (plane0 : List Float)
  | convertible (result : Option (List Float))

/-- The append step shared by both match arms of DecodedAudio::new:
with one channel every sample is pushed twice (duplicated into both
output channels); otherwise plane(0) is appended verbatim with
extend_from_slice. -/
def append_plane (channels : Nat) (buf plane0 : List Float) : List Float :=
  if channels = 1 then buf ++ plane0.flatMap (fun sample => [sample, sample])
  else buf ++ plane0

/-- The sample buffer DecodedAudio::new (audio.rs) accumulates over
the decoded frames of the selected stream, starting from the empty
vector. Packets of other streams and packets whose send_packet fails
contribute no frames and are invisible here; a conversion failure
contributes nothing. -/
def decoded_samples (channels : Nat) (frames : List AudioFrameEvent) :
    List Float :=
  frames.foldl
    (fun buf f =>
      match f with
      | .native plane0 => append_plane channels buf plane0
      | .convertible (some plane0) => append_plane channels buf plane0
      | .convertible none => buf)
    []

/-- struct DecodedAudio (audio.rs): the shared, immutable-after-load
sample buffer with its per-channel sample rate and duration. -/
structure DecodedAudio where
  samples : List Float
  sample_rate : Nat
  duration_ms : Int

/-- struct MemoryAudioSource (audio.rs): a cursor over the shared
DecodedAudio buffer. cell_ms models the contents of the shared
Arc-Mutex current-time cell this cursor publishes into. -/
structure MemoryAudioSource where
  decoded_audio : DecodedAudio
  position : Nat
  cell_ms : Int

/-- MemoryAudioSource::new (audio.rs): immediately publishes the
ms-equivalent of the starting offset into the shared time cell,
overwriting whatever the cell held (the prior cell contents cellBefore
are discarded). -/
def MemoryAudioSource.new (decoded_audio : DecodedAudio) (start_pos : Nat)
    (cellBefore : Int) : MemoryAudioSource :=
  let _ := cellBefore
  { decoded_audio := decoded_audio, position := start_pos,
    cell_ms := sample_pos_to_ms decoded_audio.sample_rate start_pos }

/-- The Iterator::next of MemoryAudioSource (audio.rs): if the cursor
is inside the buffer, read the sample at the current position,
republish the current time into the shared cell when the position is a
multiple of 4000, then advance by one element; past the end, yield
nothing and leave the cursor untouched. -/
def MemoryAudioSource.next (s : MemoryAudioSource) :
    Option Float × MemoryAudioSource :=
  if h : s.position < s.decoded_audio.samples.length then
    let sample := s.decoded_audio.samples.get ⟨s.position, h⟩
    let cell' :=
      if s.position % 4000 = 0 then
        sample_pos_to_ms s.decoded_audio.sample_rate s.position
      else s.cell_ms
    (some sample, { s with position := s.position + 1, cell_ms := cell' })
  else (none, s)

/-- Pull from the cursor k times; returns the final cursor and how
many of those pulls yielded a sample. -/
def MemoryAudioSource.pulls (s : MemoryAudioSource) :
    Nat → MemoryAudioSource × Nat
  | 0 => (s, 0)
  | k + 1 =>
    ((s.next.2.pulls k).1,
     (s.next.2.pulls k).2 + (if s.next.1.isSome then 1 else 0))

/-- The fields of struct Audio (audio.rs) the seek and time operations
touch: the shared time cell, the shared decoded buffer, the active
cursor position, the sink's pause flag and the recorded was_playing
flag. The platform sink and output stream hold no further modelled
state. -/
structure AudioCtl where
  decoded_audio : DecodedAudio
  current_time_ms : Int
  source_position : Nat
  sink_paused : Bool
  was_playing : Bool

/-- Audio::seek (audio.rs), in source order: record whether the sink
was playing; clamp the target to 0..=duration_ms; compute the element
offset; write the clamped target into the shared time cell; stop and
clear the sink; construct a fresh MemoryAudioSource at the offset
(whose constructor republishes the offset's ms-equivalent into the
cell, overwriting the target just written); append it and resume
play/pause per the recorded flag. -/
def AudioCtl.seek (a : AudioCtl) (target_ms : Int) : AudioCtl :=
  let was_playing := !a.sink_paused
  let target := min (max target_ms 0) a.decoded_audio.duration_ms
  let sample_pos := ms_to_sample_pos a.decoded_audio.sample_rate target
  let cellAfterTargetWrite := target
  let source :=
    MemoryAudioSource.new a.decoded_audio sample_pos cellAfterTargetWrite
  { a with was_playing := was_playing,
           current_time_ms := source.cell_ms,
           source_position := source.position,
           sink_paused := !was_playing }

/-- Audio::get_current_time (audio.rs): read the shared time cell. -/
def AudioCtl.get_current_time (a : AudioCtl) : Int :=
  a.current_time_ms

/-! ## A/V sync monitor (main.rs, update_video_frame) -/

/-- The inputs the sync-monitor block of update_video_frame reads:
whether a video pipeline and an audio controller are attached, the
pause flag, the fps counter's frame count (incremented once per
accepted frame), and the two clocks. -/
structure SyncInputs where
  hasVideo : Bool
  paused : Bool
  frame_count : Nat
  hasAudio : Bool
  video_time_ms : Int
  audio_time_ms : Int
deriving DecidableEq, Repr

/-- The sync-monitor block (main.rs): when a video is attached,
playback is not paused and the frame count is a multiple of 150,
compare the video timestamp with the audio current time and, when
their absolute difference exceeds 200 ms, issue audio.seek with the
video timestamp; otherwise do nothing. Returns the seek target issued,
if any. -/
def sync_monitor (i : SyncInputs) : Option Int :=
  if i.hasVideo && !i.paused && i.frame_count % 150 = 0 then
    if i.hasAudio then
      let sync_diff := (i.video_time_ms - i.audio_time_ms).natAbs
      if sync_diff > 200 then some i.video_time_ms else none
    else none
  else none

/-! ## RGB to RGBA conversion (video.rs)

Byte buffers are arrays of Nat byte values. Rust slice indexing panics
when the index is out of range, so reads and writes are modelled in
Except: an out-of-range access is an error value, and the safety
theorem shows the conversion never produces one. Index arithmetic is
on Nat; the source computes it on usize, where the y * line_size
product could wrap for absurd strides, but every access is guarded by
a bounds check against the buffer lengths, so a wrapped index is
dropped exactly like an oversized one. -/

/-- Read one byte, panicking (error) when out of range, as Rust slice
indexing does. -/
def readByte (a : Array Nat) (i : Nat) : Except Unit Nat :=
  if h : i < a.size then Except.ok (a.get ⟨i, h⟩) else Except.error ()

/-- Write one byte, panicking (error) when out of range, as Rust slice
indexing does. -/
def writeByte (a : Array Nat) (i : Nat) (v : Nat) : Except Unit (Array Nat) :=
  if h : i < a.size then Except.ok (a.set ⟨i, h⟩ v) else Except.error ()

/-- The innermost body of Video::convert_rgb_to_rgba_fast for one
pixel column col = x + i of row y: compute the source and destination
indices from the reported stride and the frame width, and only when
both the last source byte and the last destination byte are inside
their buffers copy the RGB triple and force the alpha byte to 0xFF;
otherwise drop the pixel. -/
def convert_pixel (video_width : Nat) (src : Array Nat) (line_size : Nat)
    (y col : Nat) (dst : Array Nat) : Except Unit (Array Nat) :=
  let src_idx := y * line_size + col * 3
  let dst_idx := (y * video_width + col) * 4
  if src_idx + 2 < src.size ∧ dst_idx + 3 < dst.size then do
    let r ← readByte src src_idx
    let g ← readByte src (src_idx + 1)
    let b ← readByte src (src_idx + 2)
    let d0 ← writeByte dst dst_idx r
    let d1 ← writeByte d0 (dst_idx + 1) g
    let d2 ← writeByte d1 (dst_idx + 2) b
    writeByte d2 (dst_idx + 3) 0xFF
  else Except.ok dst

/-- One chunk of at most 8 pixels starting at column x of row y, the
inner i loop of convert_rgb_to_rgba_fast, where chunk_size =
min(8, video_width - x). -/
def convert_chunk (video_width : Nat) (src : Array Nat) (line_size : Nat)
    (y x : Nat) (dst : Array Nat) : Except Unit (Array Nat) :=
  (List.range (min 8 (video_width - x))).foldlM
    (fun d i => convert_pixel video_width src line_size y (x + i) d) dst

/-- One row y of convert_rgb_to_rgba_fast: the x loop steps by 8 over
0..video_width, so it visits x = 8 * k for every k below
ceil(video_width / 8). -/
def convert_row (video_width : Nat) (src : Array Nat) (line_size : Nat)
    (y : Nat) (dst : Array Nat) : Except Unit (Array Nat) :=
  (List.range ((video_width + 7) / 8)).foldlM
    (fun d k => convert_chunk video_width src line_size y (8 * k) d) dst

/-- Video::convert_rgb_to_rgba_fast (video.rs): row-by-row expansion
of RGB triples, read with the scaler's reported stride, into RGBA
quads with alpha forced to opaque, every element bounds-checked
against both buffers. -/
def convert_rgb_to_rgba_fast (video_width video_height : Nat)
    (src : Array Nat) (line_size : Nat) (dst : Array Nat) :
    Except Unit (Array Nat) :=
  (List.range video_height).foldlM
    (fun d y => convert_row video_width src line_size y d) dst

/-! ## C9: failed container seek leaves the seek state untouched -/

/-- C9: when the underlying container seek call inside Video::seek
fails, seek_to_ms_accurate propagates the error and just_seeked,
seek_target_ms, frames_decoded_since_seek and current_timestamp_ms all
keep their prior values, so no seek is considered in progress after a
failed seek. -/
theorem seek_failure_leaves_state_unchanged (s : VideoState)
    (target_ms : Int) :
    (seek_to_ms_accurate s target_ms false).1 = Except.error () ∧
    (seek_to_ms_accurate s target_ms false).2.just_seeked = s.just_seeked ∧
    (seek_to_ms_accurate s target_ms false).2.seek_target_ms
      = s.seek_target_ms ∧
    (seek_to_ms_accurate s target_ms false).2.frames_decoded_since_seek
      = s.frames_decoded_since_seek ∧
    (seek_to_ms_accurate s target_ms false).2.current_timestamp_ms
      = s.current_timestamp_ms :=
  ⟨rfl, rfl, rfl, rfl, rfl⟩

/-! ## C8: the sync monitor's 200 ms drift threshold -/

/-- C8: with a video pipeline present, playback unpaused, an audio
controller attached and the accepted-frame counter at a multiple of
150, the sync monitor issues an audio seek exactly when the absolute
video/audio clock difference exceeds 200 ms, and the seek target it
issues is always the video timestamp. -/
theorem sync_monitor_seeks_iff_drift_exceeds_200 (i : SyncInputs)
    (hv : i.hasVideo = true) (hp : i.paused = false)
    (ha : i.hasAudio = true) (hc : i.frame_count % 150 = 0) :
    ((sync_monitor i).isSome ↔
      200 < (i.video_time_ms - i.audio_time_ms).natAbs) ∧
    (∀ t, sync_monitor i = some t → t = i.video_time_ms) := by
  have hcond : sync_monitor i =
      if 200 < (i.video_time_ms - i.audio_time_ms).natAbs
      then some i.video_time_ms else none := by
    unfold sync_monitor
    rw [hv, hp, ha]
    simp [hc]
  rw [hcond]
  constructor
  · by_cases h : 200 < (i.video_time_ms - i.audio_time_ms).natAbs <;>
      simp [h]
  · intro t ht
    by_cases h : 200 < (i.video_time_ms - i.audio_time_ms).natAbs <;>
      simp [h] at ht
    omega

/-- Witness for C8 at the spec's own scenario: video clock 10000 ms,
audio clock 9700 ms, counter at 150. -/
theorem sync_monitor_seeks_iff_drift_exceeds_200_witness :
    ((sync_monitor ⟨true, false, 150, true, 10000, 9700⟩).isSome ↔
      200 < ((10000 : Int) - 9700).natAbs) ∧
    (∀ t, sync_monitor ⟨true, false, 150, true, 10000, 9700⟩ = some t →
      t = 10000) :=
  sync_monitor_seeks_iff_drift_exceeds_200
    ⟨true, false, 150, true, 10000, 9700⟩ rfl rfl rfl rfl

/-! ## C2: zero-pts frames during seek settling -/

/-- C2 counterexample: the claim says a frame whose timestamp
rescales to exactly 0 ms, decoded while a seek is settling, does not
increment the decoded-frame count. In the source the increment happens
before the zero-timestamp test, so from a fresh post-seek state
(count 0) processing one 0-pts frame leaves the count at 1, not 0 —
even though the frame is indeed skipped (no emission) and the reported
timestamp stays at the seek target. -/
theorem settle_zero_pts_counterexample :
    (next_frame_step ⟨0, ⟨1, 1000⟩, true, 5000, 0, 5000⟩
        (.frame (some 0) true)).1.frames_decoded_since_seek = 1 ∧
    ¬ ((next_frame_step ⟨0, ⟨1, 1000⟩, true, 5000, 0, 5000⟩
        (.frame (some 0) true)).1.frames_decoded_since_seek = 0) ∧
    (next_frame_step ⟨0, ⟨1, 1000⟩, true, 5000, 0, 5000⟩
        (.frame (some 0) true)).2 = .next ∧
    (next_frame_step ⟨0, ⟨1, 1000⟩, true, 5000, 0, 5000⟩
        (.frame (some 0) true)).1.current_timestamp_ms = 5000 := by
  decide

/-- C2 amended: while a seek is settling and the safety valve would
not fire (count + 1 is at most 300), a decoded frame whose timestamp
rescales to exactly 0 ms is skipped with no emission, the reported
current timestamp, the settling flag and the seek target are left
unchanged, but the decoded-frame count is incremented — the skipped
frame does count toward the 300-frame safety valve. -/
theorem settle_zero_pts_skipped_but_counted (s : VideoState) (pts : Int)
    (convertOk : Bool) (hseek : s.just_seeked = true)
    (hcount : s.frames_decoded_since_seek + 1 ≤ 300)
    (hzero : timestamp_to_ms pts s.time_base = 0) :
    next_frame_step s (.frame (some pts) convertOk) =
      ({ s with frames_decoded_since_seek :=
          s.frames_decoded_since_seek + 1 }, .next) := by
  have h300 : ¬ (s.frames_decoded_since_seek + 1 > 300) := by omega
  simp [next_frame_step, hseek, hzero, h300]

/-- Witness for C2 at a concrete settling state and a 0-pts frame. -/
theorem settle_zero_pts_skipped_but_counted_witness :
    next_frame_step ⟨0, ⟨1, 1000⟩, true, 5000, 7, 4000⟩
        (.frame (some 0) true) =
      (⟨0, ⟨1, 1000⟩, true, 5000, 8, 4000⟩, .next) :=
  settle_zero_pts_skipped_but_counted ⟨0, ⟨1, 1000⟩, true, 5000, 7, 4000⟩
    0 true rfl (by decide) (by decide)

/-! ## C4: seek then get_current_time on the audio controller -/

/-- C4 counterexample: the claim says seek(T) followed immediately by
get_current_time returns exactly T. With the decoded buffer at
44100 Hz and duration 10000 ms, seeking to T = 1 publishes 0, not 1:
Audio::seek writes the clamped target into the time cell, but the
MemoryAudioSource constructor it then calls republishes the
ms-equivalent of the computed element offset (88 elements, which maps
back to 0 ms), overwriting the target before any sample is consumed. -/
theorem audio_seek_roundtrip_counterexample :
    (AudioCtl.seek ⟨⟨[], 44100, 10000⟩, 0, 0, false, true⟩
        1).get_current_time = 0 ∧
    ¬ ((AudioCtl.seek ⟨⟨[], 44100, 10000⟩, 0, 0, false, true⟩
        1).get_current_time = 1) := by
  constructor <;> decide

/-- C4 amended: for T within 0..=duration_ms, seek(T) followed
immediately by get_current_time returns the ms-equivalent of the new
cursor offset, sample_pos_to_ms(ms_to_sample_pos(T)) — the value the
fresh MemoryAudioSource publishes over seek's own pre-publish write of
T — rather than T itself. -/
theorem audio_seek_publishes_cursor_time (a : AudioCtl) (T : Int)
    (h0 : 0 ≤ T) (hd : T ≤ a.decoded_audio.duration_ms) :
    (a.seek T).get_current_time =
      sample_pos_to_ms a.decoded_audio.sample_rate
        (ms_to_sample_pos a.decoded_audio.sample_rate T) := by
  unfold AudioCtl.seek AudioCtl.get_current_time MemoryAudioSource.new
  simp only
  rw [show min (max T 0) a.decoded_audio.duration_ms = T by omega]

/-- Witness for C4 at 44100 Hz, duration 10000 ms, T = 1000 ms. -/
theorem audio_seek_publishes_cursor_time_witness :
    (AudioCtl.seek ⟨⟨[], 44100, 10000⟩, 0, 0, false, true⟩
        1000).get_current_time =
      sample_pos_to_ms 44100 (ms_to_sample_pos 44100 1000) :=
  audio_seek_publishes_cursor_time ⟨⟨[], 44100, 10000⟩, 0, 0, false, true⟩
    1000 (by decide) (by decide)

/-! ## C3: duration estimator packet scan -/

/-- The rescaled presentation timestamps of the pts-bearing packets of
the target stream, in delivery order. -/
def target_pts_ms (packets : List AVPacket) (stream_index : Nat)
    (time_base : AVRational) : List Int :=
  packets.filterMap
    (fun packet =>
      if packet.stream = stream_index then
        packet.pts.map (fun pts => av_rescale_q pts time_base msTimeBase)
      else none)

theorem calculate_duration_eq_foldl_last (packets : List AVPacket)
    (stream_index : Nat) (time_base : AVRational) :
    ∀ a : Int,
      packets.foldl
        (fun last_pts packet =>
          if packet.stream = stream_index then
            match packet.pts with
            | some pts => av_rescale_q pts time_base msTimeBase
            | none => last_pts
          else last_pts) a
      = (target_pts_ms packets stream_index time_base).foldl
          (fun _ x => x) a := by
  induction packets with
  | nil => intro a; rfl
  | cons p ps ih =>
    intro a
    by_cases hs : p.stream = stream_index
    · cases hpts : p.pts with
      | none => simp [target_pts_ms, hs, hpts, List.filterMap_cons, ih]
      | some pts => simp [target_pts_ms, hs, hpts, List.filterMap_cons, ih]
    · simp [target_pts_ms, hs, List.filterMap_cons, ih]

theorem spec_max_eq_foldl_max (packets : List AVPacket)
    (stream_index : Nat) (time_base : AVRational) :
    ∀ a : Int,
      packets.foldl
        (fun acc packet =>
          if packet.stream = stream_index then
            match packet.pts with
            | some pts => max acc (av_rescale_q pts time_base msTimeBase)
            | none => acc
          else acc) a
      = (target_pts_ms packets stream_index time_base).foldl max a := by
  induction packets with
  | nil => intro a; rfl
  | cons p ps ih =>
    intro a
    by_cases hs : p.stream = stream_index
    · cases hpts : p.pts with
      | none => simp [target_pts_ms, hs, hpts, List.filterMap_cons, ih]
      | some pts => simp [target_pts_ms, hs, hpts, List.filterMap_cons, ih]
    · simp [target_pts_ms, hs, List.filterMap_cons, ih]

theorem foldl_last_eq_foldl_max_of_chain :
    ∀ (l : List Int) (a : Int), List.Chain (· ≤ ·) a l →
      l.foldl (fun _ x => x) a = l.foldl max a := by
  intro l
  induction l with
  | nil => intro a _; rfl
  | cons x xs ih =>
    intro a hchain
    rcases hchain with _ | ⟨hax, hxs⟩
    simp only [List.foldl_cons]
    rw [max_eq_right hax]
    exact ih x hxs

/-- C3 counterexample: the claim says the packet-scan fallback returns
the maximum rescaled pts of the target stream for every delivery
order. The source keeps only the last rescaled pts it saw: with the
target stream's packets delivered as pts 5000 ms then pts 3000 ms (the
non-monotonic delivery order B-frame streams produce), the scan
returns 3000 while the maximum is 5000, and a container reporting 0 ms
(below a 330 ms plausibility threshold) therefore gets duration 3000,
not 5000. -/
theorem duration_scan_order_counterexample :
    calculate_duration [⟨0, some 5000⟩, ⟨0, some 3000⟩] 0 ⟨1, 1000⟩
      = 3000 ∧
    spec_max_packet_pts_ms [⟨0, some 5000⟩, ⟨0, some 3000⟩] 0 ⟨1, 1000⟩
      = 5000 ∧
    ¬ (calculate_duration [⟨0, some 5000⟩, ⟨0, some 3000⟩] 0 ⟨1, 1000⟩
        = spec_max_packet_pts_ms [⟨0, some 5000⟩, ⟨0, some 3000⟩] 0
            ⟨1, 1000⟩) ∧
    video_duration_ms 0 330 [⟨0, some 5000⟩, ⟨0, some 3000⟩] 0 ⟨1, 1000⟩
      = 3000 := by
  refine ⟨by decide, by decide, by decide, by decide⟩

/-- C3 amended: the packet-scan fallback returns the rescaled pts of
the last-delivered pts-bearing packet of the target stream (0 when
there is none), which equals the maximum rescaled pts exactly when the
rescaled timestamps arrive in nondecreasing order starting at or above
0 — so the 0-ms-container / 5000-ms-stream example returns 5000 only
when the 5000 ms packet is delivered last. -/
theorem duration_scan_max_when_monotone (packets : List AVPacket)
    (stream_index : Nat) (time_base : AVRational)
    (h : List.Chain (· ≤ ·) 0
      (target_pts_ms packets stream_index time_base)) :
    calculate_duration packets stream_index time_base
      = spec_max_packet_pts_ms packets stream_index time_base := by
  unfold calculate_duration spec_max_packet_pts_ms
  rw [calculate_duration_eq_foldl_last packets stream_index time_base 0,
    spec_max_eq_foldl_max packets stream_index time_base 0]
  exact foldl_last_eq_foldl_max_of_chain _ 0 h

/-- Witness for C3 with the spec's example stream delivered in
nondecreasing pts order, ending at 5000 ms. -/
theorem duration_scan_max_when_monotone_witness :
    calculate_duration [⟨0, some 2000⟩, ⟨1, some 9000⟩, ⟨0, some 5000⟩] 0
        ⟨1, 1000⟩
      = spec_max_packet_pts_ms
          [⟨0, some 2000⟩, ⟨1, some 9000⟩, ⟨0, some 5000⟩] 0 ⟨1, 1000⟩ :=
  duration_scan_max_when_monotone
    [⟨0, some 2000⟩, ⟨1, some 9000⟩, ⟨0, some 5000⟩] 0 ⟨1, 1000⟩
    (by
      have h : target_pts_ms
          [⟨0, some 2000⟩, ⟨1, some 9000⟩, ⟨0, some 5000⟩] 0 ⟨1, 1000⟩
          = [2000, 5000] := by rfl
      rw [h]
      exact List.Chain.cons (by norm_num)
        (List.Chain.cons (by norm_num) List.Chain.nil))

/-! ## C5: position mapping round trip -/

theorem roundtrip_pos_le (r n : Nat) (hr : 0 < r) :
    n * r / 1000 * 1000 / r ≤ n := by
  have h1 : n * r / 1000 * 1000 ≤ n * r := Nat.div_mul_le_self (n * r) 1000
  have h3 : n * r / 1000 * 1000 / r * r ≤ n * r / 1000 * 1000 :=
    Nat.div_mul_le_self (n * r / 1000 * 1000) r
  exact Nat.le_of_mul_le_mul_right (le_trans h3 h1) hr

theorem roundtrip_gap_bound (r n : Nat) (hr : 0 < r) :
    n * r ≤ (n * r / 1000 * 1000 / r) * r + r + 998 := by
  have h2 : 1000 * (n * r / 1000) + n * r % 1000 = n * r :=
    Nat.div_add_mod (n * r) 1000
  have h2b : n * r % 1000 < 1000 := Nat.mod_lt _ (by norm_num)
  have h4 : r * (n * r / 1000 * 1000 / r) + n * r / 1000 * 1000 % r
      = n * r / 1000 * 1000 := Nat.div_add_mod (n * r / 1000 * 1000) r
  have h4b : n * r / 1000 * 1000 % r < r := Nat.mod_lt _ hr
  have h5 : n * r / 1000 * 1000 / r * r = r * (n * r / 1000 * 1000 / r) :=
    Nat.mul_comm _ _
  omega

/-- C5 counterexample: the claim bounds the round-trip error by one
sample period, 1000/sample_rate milliseconds, i.e. requires
(ms - roundtrip) * sample_rate <= 1000. At sample rate 7 Hz and
ms = 285 (within a 285 ms duration) the round trip gives 142 ms, an
error of 143 ms, and 143 * 7 = 1001 exceeds 1000 — one whole
millisecond more than a sample period. -/
theorem sample_roundtrip_claim_counterexample :
    (0 : Int) ≤ 285 ∧ (285 : Int) ≤ 285 ∧ 0 < (7 : Nat) ∧
    ¬ (((285 : Int) - sample_pos_to_ms 7 (ms_to_sample_pos 7 285)).natAbs
        * 7 ≤ 1000) := by
  decide

/-- C5 amended: for every positive sample rate and ms in
0..=duration_ms, the round trip sample_pos_to_ms(ms_to_sample_pos(ms))
never exceeds ms and falls short of it by strictly less than one
sample period plus one millisecond: (ms - roundtrip) * sample_rate <
1000 + sample_rate. The claim's bound of exactly one sample period
(error * sample_rate <= 1000) does not hold in general. -/
theorem sample_roundtrip_within_period_plus_one (sample_rate : Nat)
    (duration_ms ms : Int) (hr : 0 < sample_rate) (h0 : 0 ≤ ms)
    (hd : ms ≤ duration_ms) :
    sample_pos_to_ms sample_rate (ms_to_sample_pos sample_rate ms) ≤ ms ∧
    (ms - sample_pos_to_ms sample_rate
        (ms_to_sample_pos sample_rate ms)).natAbs * sample_rate
      < 1000 + sample_rate := by
  have hdiv : ms.toNat * sample_rate / 1000 * 2 / 2
      = ms.toNat * sample_rate / 1000 := by omega
  have hrt : sample_pos_to_ms sample_rate (ms_to_sample_pos sample_rate ms)
      = ((ms.toNat * sample_rate / 1000 * 1000 / sample_rate : Nat) : Int) := by
    unfold sample_pos_to_ms ms_to_sample_pos
    rw [hdiv]
  have hle : ms.toNat * sample_rate / 1000 * 1000 / sample_rate ≤ ms.toNat :=
    roundtrip_pos_le sample_rate ms.toNat hr
  have hgap : ms.toNat * sample_rate ≤
      (ms.toNat * sample_rate / 1000 * 1000 / sample_rate) * sample_rate
        + sample_rate + 998 :=
    roundtrip_gap_bound sample_rate ms.toNat hr
  rw [hrt]
  have hsub : (ms.toNat - ms.toNat * sample_rate / 1000 * 1000 / sample_rate)
      * sample_rate
      = ms.toNat * sample_rate
        - (ms.toNat * sample_rate / 1000 * 1000 / sample_rate)
          * sample_rate :=
    Nat.sub_mul _ _ _
  constructor
  · omega
  · have habs : ((ms - ((ms.toNat * sample_rate / 1000 * 1000 / sample_rate
        : Nat) : Int)).natAbs)
        = ms.toNat - ms.toNat * sample_rate / 1000 * 1000 / sample_rate := by
      omega
    rw [habs]
    omega

/-- Witness for C5 at 44100 Hz, duration 10000 ms, ms = 1000. -/
theorem sample_roundtrip_within_period_plus_one_witness :
    sample_pos_to_ms 44100 (ms_to_sample_pos 44100 1000) ≤ (1000 : Int) ∧
    ((1000 : Int) - sample_pos_to_ms 44100
        (ms_to_sample_pos 44100 1000)).natAbs * 44100 < 1000 + 44100 :=
  sample_roundtrip_within_period_plus_one 44100 10000 1000 (by decide)
    (by decide) (by decide)

/-! ## C6: stereo-interleaved buffer length parity -/

/-- The number of plane-0 samples an event contributes before channel
duplication (0 for a failed conversion). -/
def AudioFrameEvent.planeLen : AudioFrameEvent → Nat
  | .native plane0 => plane0.length
  | .convertible (some plane0) => plane0.length
  | .convertible none => 0

theorem length_dup_plane (plane0 : List Float) :
    (plane0.flatMap (fun sample => [sample, sample])).length
      = 2 * plane0.length := by
  induction plane0 with
  | nil => rfl
  | cons x xs ih => simp [List.flatMap_cons, ih]; omega

theorem length_append_plane (channels : Nat) (buf plane0 : List Float) :
    (append_plane channels buf plane0).length
      = buf.length +
        (if channels = 1 then 2 * plane0.length else plane0.length) := by
  unfold append_plane
  by_cases h : channels = 1
  · rw [if_pos h, if_pos h, List.length_append, length_dup_plane]
  · rw [if_neg h, if_neg h, List.length_append]

/-- C6 counterexample: the claim asserts the buffer length is even for
every sequence of decoded frames, including multi-channel ones. The
multi-channel path appends plane(0) verbatim, so a 2-channel stream
whose (single) frame carries 3 plane-0 samples produces a buffer of
odd length 3. -/
theorem stereo_buffer_even_counterexample :
    (decoded_samples 2 [.native [0, 0, 0]]).length = 3 ∧
    ¬ ((decoded_samples 2 [.native [0, 0, 0]]).length % 2 = 0) := by
  exact ⟨rfl, by decide⟩

/-- C6 amended: the buffer length is always even on the mono path
(every sample is pushed twice); on the multi-channel path each frame
appends its plane-0 slice verbatim, so the buffer length is even
provided every decoded (or converted) frame contributes an even
number of plane-0 samples. -/
theorem stereo_buffer_even_when_planes_even (channels : Nat)
    (frames : List AudioFrameEvent)
    (h : channels = 1 ∨ ∀ f ∈ frames, f.planeLen % 2 = 0) :
    (decoded_samples channels frames).length % 2 = 0 := by
  unfold decoded_samples
  suffices hgen : ∀ buf : List Float, buf.length % 2 = 0 →
      (frames.foldl
        (fun buf f =>
          match f with
          | .native plane0 => append_plane channels buf plane0
          | .convertible (some plane0) => append_plane channels buf plane0
          | .convertible none => buf) buf).length % 2 = 0 by
    exact hgen [] rfl
  induction frames with
  | nil => intro buf hbuf; exact hbuf
  | cons f fs ih =>
    have hf : channels = 1 ∨ f.planeLen % 2 = 0 := by
      rcases h with h1 | h2
      · exact Or.inl h1
      · exact Or.inr (h2 f (List.mem_cons_self f fs))
    have hrest : channels = 1 ∨ ∀ g ∈ fs, g.planeLen % 2 = 0 := by
      rcases h with h1 | h2
      · exact Or.inl h1
      · exact Or.inr (fun g hg => h2 g (List.mem_cons_of_mem f hg))
    intro buf hbuf
    simp only [List.foldl_cons]
    have hstep : ∀ plane0 : List Float, plane0.length = f.planeLen →
        (append_plane channels buf plane0).length % 2 = 0 := by
      intro plane0 hp
      rw [length_append_plane]
      rcases hf with h1 | h2
      · simp [h1]; omega
      · by_cases hc : channels = 1
        · simp [hc]; omega
        · simp [hc]; omega
    cases f with
    | native plane0 => exact ih hrest _ (hstep plane0 rfl)
    | convertible r =>
      cases r with
      | some plane0 => exact ih hrest _ (hstep plane0 rfl)
      | none => exact ih hrest _ hbuf

/-- Witness for C6: a 2-channel stream whose frames all carry evenly
many plane-0 samples. -/
theorem stereo_buffer_even_when_planes_even_witness :
    (decoded_samples 2
      [.native [0, 0], .convertible (some [0, 0, 0, 0]),
       .convertible none]).length % 2 = 0 :=
  stereo_buffer_even_when_planes_even 2
    [.native [0, 0], .convertible (some [0, 0, 0, 0]), .convertible none]
    (Or.inr (by
      intro f hf
      simp only [List.mem_cons, List.not_mem_nil, or_false] at hf
      rcases hf with rfl | rfl | rfl <;> rfl))

/-! ## C10: the memory audio cursor never overruns the buffer -/

theorem mas_pulls_spec (k : Nat) :
    ∀ m : MemoryAudioSource,
      (m.pulls k).2 = min k (m.decoded_audio.samples.length - m.position) ∧
      (m.pulls k).1.position
        = min (m.position + k)
            (max m.position m.decoded_audio.samples.length) ∧
      (m.pulls k).1.decoded_audio.samples.length
        = m.decoded_audio.samples.length := by
  induction k with
  | zero =>
    intro m
    simp only [MemoryAudioSource.pulls]
    refine ⟨by omega, by omega, trivial⟩
  | succ k ih =>
    intro m
    by_cases h : m.position < m.decoded_audio.samples.length
    · have hnext : m.next =
          (some (m.decoded_audio.samples.get ⟨m.position, h⟩),
           { m with position := m.position + 1,
                    cell_ms := if m.position % 4000 = 0 then
                        sample_pos_to_ms m.decoded_audio.sample_rate
                          m.position
                      else m.cell_ms }) := by
        unfold MemoryAudioSource.next
        rw [dif_pos h]
      obtain ⟨ihc, ihp, ihl⟩ := ih
        { m with position := m.position + 1,
                 cell_ms := if m.position % 4000 = 0 then
                     sample_pos_to_ms m.decoded_audio.sample_rate m.position
                   else m.cell_ms }
      simp only [MemoryAudioSource.pulls, hnext, Option.isSome_some,
        if_true] at ihc ihp ihl ⊢
      refine ⟨?_, ?_, ihl⟩
      · rw [ihc]; omega
      · rw [ihp]; omega
    · have hnext : m.next = (none, m) := by
        unfold MemoryAudioSource.next
        rw [dif_neg h]
      obtain ⟨ihc, ihp, ihl⟩ := ih m
      simp only [MemoryAudioSource.pulls, hnext, Option.isSome_none,
        Bool.false_eq_true, if_false] at ihc ihp ihl ⊢
      refine ⟨?_, ?_, ihl⟩
      · rw [ihc]; omega
      · rw [ihp]; omega

/-- C10: a cursor constructed at offset start_pos over a buffer of
length L yields exactly L - start_pos samples (0 when start_pos is
past the end) over any k pulls — min(k, L - start_pos) of the first k
pulls yield a sample — its position never moves past max(start_pos, L)
(so the in-bounds guard of every read holds and the position never
wraps at this layer), and once the first L - start_pos pulls have
happened every further pull yields none and leaves the position where
it was: the cursor stays exhausted. -/
theorem memory_audio_source_cursor_bounds (da : DecodedAudio)
    (start_pos : Nat) (cellBefore : Int) (k : Nat) :
    ((MemoryAudioSource.new da start_pos cellBefore).pulls k).2
      = min k (da.samples.length - start_pos) ∧
    ((MemoryAudioSource.new da start_pos cellBefore).pulls k).1.position
      = min (start_pos + k) (max start_pos da.samples.length) ∧
    (da.samples.length ≤ start_pos + k →
      (((MemoryAudioSource.new da start_pos cellBefore).pulls
          k).1.next.1 = none ∧
       ((MemoryAudioSource.new da start_pos cellBefore).pulls
          k).1.next.2.position
        = ((MemoryAudioSource.new da start_pos cellBefore).pulls
            k).1.position)) := by
  obtain ⟨hc, hp, hl⟩ := mas_pulls_spec k (MemoryAudioSource.new da start_pos cellBefore)
  have hnewpos : (MemoryAudioSource.new da start_pos cellBefore).position
      = start_pos := rfl
  have hnewlen : (MemoryAudioSource.new da start_pos
      cellBefore).decoded_audio.samples.length = da.samples.length := rfl
  rw [hnewpos, hnewlen] at hc hp
  refine ⟨hc, hp, ?_⟩
  intro hexh
  have hge : ¬ (((MemoryAudioSource.new da start_pos cellBefore).pulls
      k).1.position
      < ((MemoryAudioSource.new da start_pos cellBefore).pulls
          k).1.decoded_audio.samples.length) := by
    rw [hp, hl, hnewlen]
    omega
  constructor
  · unfold MemoryAudioSource.next
    rw [dif_neg hge]
  · unfold MemoryAudioSource.next
    rw [dif_neg hge]

/-- Witness for C10 at a 3-sample buffer, start offset 1, five
pulls. -/
theorem memory_audio_source_cursor_bounds_witness :
    ((MemoryAudioSource.new ⟨[0, 0, 0], 44100, 100⟩ 1 0).pulls 5).2
      = min 5 (([(0 : Float), 0, 0].length) - 1) ∧
    ((MemoryAudioSource.new ⟨[0, 0, 0], 44100, 100⟩ 1 0).pulls
        5).1.position
      = min (1 + 5) (max 1 ([(0 : Float), 0, 0].length)) ∧
    (([(0 : Float), 0, 0].length) ≤ 1 + 5 →
      (((MemoryAudioSource.new ⟨[0, 0, 0], 44100, 100⟩ 1 0).pulls
          5).1.next.1 = none ∧
       ((MemoryAudioSource.new ⟨[0, 0, 0], 44100, 100⟩ 1 0).pulls
          5).1.next.2.position
        = ((MemoryAudioSource.new ⟨[0, 0, 0], 44100, 100⟩ 1 0).pulls
            5).1.position)) :=
  memory_audio_source_cursor_bounds ⟨[0, 0, 0], 44100, 100⟩ 1 0 5

/-! ## C7: RGB to RGBA conversion safety -/

theorem foldlM_except_ok {α β : Type} (P : β → Prop)
    (f : β → α → Except Unit β)
    (hf : ∀ b a, P b → ∃ b', f b a = Except.ok b' ∧ P b') :
    ∀ (xs : List α) (b : β), P b →
      ∃ out, xs.foldlM f b = Except.ok out ∧ P out := by
  intro xs
  induction xs with
  | nil =>
    intro b hb
    exact ⟨b, rfl, hb⟩
  | cons x xs ih =>
    intro b hb
    obtain ⟨b', hfx, hb'⟩ := hf b x hb
    obtain ⟨out, hout, hP⟩ := ih b' hb'
    refine ⟨out, ?_, hP⟩
    rw [List.foldlM_cons, hfx]
    exact hout

theorem getD_set (a : Array Nat) (i : Nat) (hi : i < a.size)
    (v j : Nat) :
    (a.set ⟨i, hi⟩ v).getD j 0 = if j = i then v else a.getD j 0 := by
  unfold Array.getD
  by_cases hj : j = i
  · subst hj
    rw [dif_pos (by simpa using hi), if_pos rfl]
    simp [Array.get_set_eq]
  · rw [if_neg hj]
    by_cases hjs : j < a.size
    · rw [dif_pos (by simpa using hjs), dif_pos hjs]
      exact Array.get_set_ne a ⟨i, hi⟩ v hjs (fun h => hj h.symm)
    · rw [dif_neg (by simpa using hjs), dif_neg hjs]

theorem except_ok_bind {β γ : Type} (x : β) (f : β → Except Unit γ) :
    (Except.ok x >>= f) = f x := rfl

/-- The invariant the conversion maintains on the destination buffer:
the size never changes, and every byte at an alpha offset (index 3 mod
4) is either the opaque value 0xFF or the byte the buffer started
with. -/
def AlphaInv (dst0 a : Array Nat) : Prop :=
  a.size = dst0.size ∧
  ∀ j, j % 4 = 3 → (a.getD j 0 = 0xFF ∨ a.getD j 0 = dst0.getD j 0)

theorem convert_pixel_ok (video_width : Nat) (src : Array Nat)
    (line_size y col : Nat) (dst0 d : Array Nat) (hP : AlphaInv dst0 d) :
    ∃ d', convert_pixel video_width src line_size y col d
        = Except.ok d' ∧ AlphaInv dst0 d' := by
  unfold convert_pixel
  by_cases hg : y * line_size + col * 3 + 2 < src.size ∧
      (y * video_width + col) * 4 + 3 < d.size
  · rw [if_pos hg]
    obtain ⟨hs, hd⟩ := hg
    have hs0 : y * line_size + col * 3 < src.size := by omega
    have hs1 : y * line_size + col * 3 + 1 < src.size := by omega
    have hw0 : (y * video_width + col) * 4 < d.size := by omega
    rw [show readByte src (y * line_size + col * 3)
        = Except.ok (src.get ⟨y * line_size + col * 3, hs0⟩) from
      dif_pos hs0]
    simp only [except_ok_bind]
    rw [show readByte src (y * line_size + col * 3 + 1)
        = Except.ok (src.get ⟨y * line_size + col * 3 + 1, hs1⟩) from
      dif_pos hs1]
    simp only [except_ok_bind]
    rw [show readByte src (y * line_size + col * 3 + 2)
        = Except.ok (src.get ⟨y * line_size + col * 3 + 2, hs⟩) from
      dif_pos hs]
    simp only [except_ok_bind]
    rw [show writeByte d ((y * video_width + col) * 4)
          (src.get ⟨y * line_size + col * 3, hs0⟩)
        = Except.ok (d.set ⟨(y * video_width + col) * 4, hw0⟩
            (src.get ⟨y * line_size + col * 3, hs0⟩)) from dif_pos hw0]
    simp only [except_ok_bind]
    have hsz0 : (d.set ⟨(y * video_width + col) * 4, hw0⟩
        (src.get ⟨y * line_size + col * 3, hs0⟩)).size = d.size :=
      Array.size_set _ _ _
    have hw1 : (y * video_width + col) * 4 + 1 < (d.set
        ⟨(y * video_width + col) * 4, hw0⟩
        (src.get ⟨y * line_size + col * 3, hs0⟩)).size := by omega
    rw [show writeByte (d.set ⟨(y * video_width + col) * 4, hw0⟩
          (src.get ⟨y * line_size + col * 3, hs0⟩))
          ((y * video_width + col) * 4 + 1)
          (src.get ⟨y * line_size + col * 3 + 1, hs1⟩)
        = Except.ok ((d.set ⟨(y * video_width + col) * 4, hw0⟩
            (src.get ⟨y * line_size + col * 3, hs0⟩)).set
            ⟨(y * video_width + col) * 4 + 1, hw1⟩
            (src.get ⟨y * line_size + col * 3 + 1, hs1⟩)) from
      dif_pos hw1]
    simp only [except_ok_bind]
    have hsz1 : ((d.set ⟨(y * video_width + col) * 4, hw0⟩
        (src.get ⟨y * line_size + col * 3, hs0⟩)).set
        ⟨(y * video_width + col) * 4 + 1, hw1⟩
        (src.get ⟨y * line_size + col * 3 + 1, hs1⟩)).size = d.size := by
      rw [Array.size_set, hsz0]
    have hw2 : (y * video_width + col) * 4 + 2 < ((d.set
        ⟨(y * video_width + col) * 4, hw0⟩
        (src.get ⟨y * line_size + col * 3, hs0⟩)).set
        ⟨(y * video_width + col) * 4 + 1, hw1⟩
        (src.get ⟨y * line_size + col * 3 + 1, hs1⟩)).size := by omega
    rw [show writeByte ((d.set ⟨(y * video_width + col) * 4, hw0⟩
          (src.get ⟨y * line_size + col * 3, hs0⟩)).set
          ⟨(y * video_width + col) * 4 + 1, hw1⟩
          (src.get ⟨y * line_size + col * 3 + 1, hs1⟩))
          ((y * video_width + col) * 4 + 2)
          (src.get ⟨y * line_size + col * 3 + 2, hs⟩)
        = Except.ok (((d.set ⟨(y * video_width + col) * 4, hw0⟩
            (src.get ⟨y * line_size + col * 3, hs0⟩)).set
            ⟨(y * video_width + col) * 4 + 1, hw1⟩
            (src.get ⟨y * line_size + col * 3 + 1, hs1⟩)).set
            ⟨(y * video_width + col) * 4 + 2, hw2⟩
            (src.get ⟨y * line_size + col * 3 + 2, hs⟩)) from
      dif_pos hw2]
    simp only [except_ok_bind]
    have hsz2 : (((d.set ⟨(y * video_width + col) * 4, hw0⟩
        (src.get ⟨y * line_size + col * 3, hs0⟩)).set
        ⟨(y * video_width + col) * 4 + 1, hw1⟩
        (src.get ⟨y * line_size + col * 3 + 1, hs1⟩)).set
        ⟨(y * video_width + col) * 4 + 2, hw2⟩
        (src.get ⟨y * line_size + col * 3 + 2, hs⟩)).size = d.size := by
      rw [Array.size_set, hsz1]
    have hw3 : (y * video_width + col) * 4 + 3 < (((d.set
        ⟨(y * video_width + col) * 4, hw0⟩
        (src.get ⟨y * line_size + col * 3, hs0⟩)).set
        ⟨(y * video_width + col) * 4 + 1, hw1⟩
        (src.get ⟨y * line_size + col * 3 + 1, hs1⟩)).set
        ⟨(y * video_width + col) * 4 + 2, hw2⟩
        (src.get ⟨y * line_size + col * 3 + 2, hs⟩)).size := by omega
    rw [show writeByte (((d.set ⟨(y * video_width + col) * 4, hw0⟩
          (src.get ⟨y * line_size + col * 3, hs0⟩)).set
          ⟨(y * video_width + col) * 4 + 1, hw1⟩
          (src.get ⟨y * line_size + col * 3 + 1, hs1⟩)).set
          ⟨(y * video_width + col) * 4 + 2, hw2⟩
          (src.get ⟨y * line_size + col * 3 + 2, hs⟩))
          ((y * video_width + col) * 4 + 3) 0xFF
        = Except.ok ((((d.set ⟨(y * video_width + col) * 4, hw0⟩
            (src.get ⟨y * line_size + col * 3, hs0⟩)).set
            ⟨(y * video_width + col) * 4 + 1, hw1⟩
            (src.get ⟨y * line_size + col * 3 + 1, hs1⟩)).set
            ⟨(y * video_width + col) * 4 + 2, hw2⟩
            (src.get ⟨y * line_size + col * 3 + 2, hs⟩)).set
            ⟨(y * video_width + col) * 4 + 3, hw3⟩ 0xFF) from
      dif_pos hw3]
    refine ⟨_, rfl, ?_, ?_⟩
    · rw [Array.size_set, hsz2]
      exact hP.1
    · intro j hj
      have hmod : ((y * video_width + col) * 4) % 4 = 0 :=
        Nat.mul_mod_left _ 4
      rw [getD_set _ _ hw3, getD_set _ _ hw2, getD_set _ _ hw1,
        getD_set _ _ hw0]
      by_cases h3 : j = (y * video_width + col) * 4 + 3
      · rw [if_pos h3]
        exact Or.inl rfl
      · rw [if_neg h3, if_neg (by omega), if_neg (by omega),
          if_neg (by omega)]
        exact hP.2 j hj
  · rw [if_neg hg]
    exact ⟨d, rfl, hP⟩

theorem convert_chunk_ok (video_width : Nat) (src : Array Nat)
    (line_size y x : Nat) (dst0 d : Array Nat) (hP : AlphaInv dst0 d) :
    ∃ d', convert_chunk video_width src line_size y x d
        = Except.ok d' ∧ AlphaInv dst0 d' :=
  foldlM_except_ok (AlphaInv dst0) _
    (fun b i hb => convert_pixel_ok video_width src line_size y (x + i)
      dst0 b hb)
    (List.range (min 8 (video_width - x))) d hP

theorem convert_row_ok (video_width : Nat) (src : Array Nat)
    (line_size y : Nat) (dst0 d : Array Nat) (hP : AlphaInv dst0 d) :
    ∃ d', convert_row video_width src line_size y d
        = Except.ok d' ∧ AlphaInv dst0 d' :=
  foldlM_except_ok (AlphaInv dst0) _
    (fun b k hb => convert_chunk_ok video_width src line_size y (8 * k)
      dst0 b hb)
    (List.range ((video_width + 7) / 8)) d hP

/-- C7: for every source buffer, reported stride and frame dimensions
— malformed combinations included — the RGB-to-RGBA conversion returns
normally (no read or write ever lands outside either buffer, so the
panic value is never produced), the destination keeps its size, and
every alpha byte it writes is 0xFF: each byte at an alpha offset ends
up either 0xFF or exactly what the destination held before. -/
theorem convert_rgb_to_rgba_fast_safe (video_width video_height : Nat)
    (src : Array Nat) (line_size : Nat) (dst : Array Nat) :
    ∃ out, convert_rgb_to_rgba_fast video_width video_height src
        line_size dst = Except.ok out ∧
      out.size = dst.size ∧
      ∀ j, j % 4 = 3 → (out.getD j 0 = 0xFF ∨ out.getD j 0 = dst.getD j 0) :=
  foldlM_except_ok (AlphaInv dst) _
    (fun b y hb => convert_row_ok video_width src line_size y dst b hb)
    (List.range video_height) dst ⟨rfl, fun j _ => Or.inr rfl⟩

/-- Witness for C7 at a 2x1 frame with an oversized stride that drops
the second pixel. -/
theorem convert_rgb_to_rgba_fast_safe_witness :
    ∃ out, convert_rgb_to_rgba_fast 2 1 #[10, 20, 30, 40, 50, 60] 5
        #[0, 0, 0, 0, 0, 0, 0, 0] = Except.ok out ∧
      out.size = (#[0, 0, 0, 0, 0, 0, 0, 0] : Array Nat).size ∧
      ∀ j, j % 4 = 3 → (out.getD j 0 = 0xFF ∨
        out.getD j 0 = (#[0, 0, 0, 0, 0, 0, 0, 0] : Array Nat).getD j 0) :=
  convert_rgb_to_rgba_fast_safe 2 1 #[10, 20, 30, 40, 50, 60] 5
    #[0, 0, 0, 0, 0, 0, 0, 0]

/-! ## C1: seek settling terminal states -/

theorem settle_step_cases (s : VideoState) (e : RecvEvent)
    (hjs : s.just_seeked = true) (hcv : e.convertOkOf = true) :
    (∃ s', next_frame_step s e = (s', StepOut.next) ∧
      s'.just_seeked = true ∧ s'.seek_target_ms = s.seek_target_ms) ∨
    (∃ s' pm, next_frame_step s e = (s', StepOut.emitOk (some pm)) ∧
      (s.seek_target_ms ≤ pm ∨ 300 < s'.frames_decoded_since_seek)) ∨
    (next_frame_step s e = (s, StepOut.emitErr)) ∨
    (∃ s', next_frame_step s e = (s', StepOut.eos)) := by
  cases e with
  | frame pts convertOk =>
    have hc : convertOk = true := hcv
    subst hc
    cases pts with
    | none =>
      left
      exact ⟨s, by simp [next_frame_step, hjs], hjs, rfl⟩
    | some pts =>
      simp only [next_frame_step, hjs, if_true]
      by_cases h1 : s.frames_decoded_since_seek + 1 > 300
      · right; left
        refine ⟨{ s with
            current_timestamp_ms := timestamp_to_ms pts s.time_base,
            just_seeked := false,
            frames_decoded_since_seek := s.frames_decoded_since_seek + 1 },
          timestamp_to_ms pts s.time_base, ?_,
          Or.inr (by simpa using h1)⟩
        simp [h1]
      · by_cases h2 : timestamp_to_ms pts s.time_base = 0
        · left
          refine ⟨{ s with frames_decoded_since_seek :=
              s.frames_decoded_since_seek + 1 }, ?_, ?_, ?_⟩
          · simp [h1, h2, hjs]
          · exact hjs
          · rfl
        · by_cases h3 : timestamp_to_ms pts s.time_base ≥ s.seek_target_ms
          · right; left
            refine ⟨{ s with
                current_timestamp_ms := timestamp_to_ms pts s.time_base,
                just_seeked := false,
                frames_decoded_since_seek :=
                  s.frames_decoded_since_seek + 1 },
              timestamp_to_ms pts s.time_base, ?_, Or.inl h3⟩
            simp [h1, h2, h3]
          · left
            refine ⟨{ s with
                current_timestamp_ms := timestamp_to_ms pts s.time_base,
                frames_decoded_since_seek :=
                  s.frames_decoded_since_seek + 1 }, ?_, ?_, ?_⟩
            · simp [h1, h2, h3, hjs]
            · exact hjs
            · rfl
  | needPacket pkt =>
    cases pkt with
    | none => exact Or.inr (Or.inr (Or.inr ⟨s, rfl⟩))
    | some pr =>
      obtain ⟨idx, sendOk⟩ := pr
      by_cases hidx : idx = s.stream_index
      · cases sendOk with
        | true =>
          left
          exact ⟨s, by simp [next_frame_step, hidx], hjs, rfl⟩
        | false =>
          right; right; left
          simp [next_frame_step, hidx]
      · left
        exact ⟨s, by simp [next_frame_step, hidx], hjs, rfl⟩

theorem settle_pull_aux :
    ∀ (events : List RecvEvent) (s : VideoState),
      s.just_seeked = true →
      (∀ e ∈ events, e.convertOkOf = true) →
      ∀ (p : Option Int) (sf : VideoState),
        pull_until_frame s events = some (p, sf) →
        ∃ pm, p = some pm ∧
          (s.seek_target_ms ≤ pm ∨ 300 < sf.frames_decoded_since_seek) := by
  intro events
  induction events with
  | nil =>
    intro s _ _ p sf hrun
    simp [pull_until_frame] at hrun
  | cons e rest ih =>
    intro s hjs hcv p sf hrun
    have hcvrest : ∀ e' ∈ rest, e'.convertOkOf = true :=
      fun e' he' => hcv e' (List.mem_cons_of_mem e he')
    rcases settle_step_cases s e hjs (hcv e (List.mem_cons_self e rest))
      with ⟨s', hstep, hjs', htgt⟩ | ⟨s', pm, hstep, hor⟩ | hstep |
        ⟨s', hstep⟩
    · have hrun' : pull_until_frame s' rest = some (p, sf) := by
        rw [pull_until_frame, hstep] at hrun
        exact hrun
      obtain ⟨pm, hp, hor⟩ := ih s' hjs' hcvrest p sf hrun'
      exact ⟨pm, hp, by rw [← htgt]; exact hor⟩
    · have : some (some pm, s') = some (p, sf) := by
        rw [pull_until_frame, hstep] at hrun
        exact hrun
      injection this with h
      injection h with h1 h2
      subst h2
      exact ⟨pm, h1.symm, hor⟩
    · have hrun' : pull_until_frame s rest = some (p, sf) := by
        rw [pull_until_frame, hstep] at hrun
        exact hrun
      exact ih s hjs hcvrest p sf hrun'
    · have : (none : Option (Option Int × VideoState)) = some (p, sf) := by
        rw [pull_until_frame, hstep] at hrun
        exact hrun
      cases this

/-- C1 amended: after a successful Video::seek(target_ms), pulling
next_frame until a frame is emitted — provided no scaler/conversion
error occurs along the way — terminates only in the claim's two
states: the emitted frame has a valid timestamp that is at least
target_ms, or the safety valve fired because the decoded-frame count
exceeded 300 and the frame is emitted regardless of its timestamp.
Since the first emission is the one that ends seek recovery, no frame
with a valid timestamp below target_ms other than the safety-valve
frame is emitted while recovery is in progress. Without the
no-conversion-error proviso the claim fails, because a conversion
failure on the settling frame ends recovery with an error return and
the next emitted frame may lie below the target. -/
theorem seek_settle_terminal_states (s0 : VideoState) (target_ms : Int)
    (events : List RecvEvent)
    (hconv : ∀ e ∈ events, e.convertOkOf = true)
    (p : Option Int) (sf : VideoState)
    (hrun : pull_until_frame (seek_to_ms_accurate s0 target_ms true).2
        events = some (p, sf)) :
    ∃ pts_ms, p = some pts_ms ∧
      (target_ms ≤ pts_ms ∨ 300 < sf.frames_decoded_since_seek) :=
  settle_pull_aux events (seek_to_ms_accurate s0 target_ms true).2 rfl
    hconv p sf hrun

/-- Witness for C1: seek to 5000 ms, then an error-free trace whose
first decoded frame lies at 6000 ms. -/
theorem seek_settle_terminal_states_witness :
    ∃ pts_ms, (some (6000 : Int) : Option Int) = some pts_ms ∧
      ((5000 : Int) ≤ pts_ms ∨
        300 < (⟨0, ⟨1, 1000⟩, false, 5000, 1, 6000⟩
          : VideoState).frames_decoded_since_seek) :=
  seek_settle_terminal_states ⟨0, ⟨1, 1000⟩, false, 0, 0, 0⟩ 5000
    [.frame (some 6000) true]
    (by
      intro e he
      simp only [List.mem_singleton] at he
      subst he
      rfl)
    (some 6000) ⟨0, ⟨1, 1000⟩, false, 5000, 1, 6000⟩ (by decide)

/-- C1 counterexample to the claim as stated (without the
no-conversion-error proviso): seek to 5000 ms; the first decoded frame
sits at 6000 ms and would settle the seek, but its conversion fails,
so next_frame returns an error with recovery already marked finished;
the following decoded frame at 100 ms is then emitted as the first
frame after the seek — its valid timestamp is below the 5000 ms target
and only 1 frame was decoded, so neither of the claim's two terminal
states holds. -/
theorem seek_settle_claim_counterexample :
    pull_until_frame
        (seek_to_ms_accurate ⟨0, ⟨1, 1000⟩, false, 0, 0, 0⟩ 5000 true).2
        [.frame (some 6000) false, .frame (some 100) true]
      = some (some 100, ⟨0, ⟨1, 1000⟩, false, 5000, 1, 100⟩) ∧
    ¬ ((5000 : Int) ≤ 100 ∨
        300 < (⟨0, ⟨1, 1000⟩, false, 5000, 1, 100⟩
          : VideoState).frames_decoded_since_seek) := by
  exact ⟨by decide, by decide⟩
